import Mathlib

/-!
# Verification of the dice-game auth/session subsystem

A shallow embedding of the authentication service (`auth.go`): the
credential store, the session table with its reverse index, login /
logout / validate handlers, and the periodic stale-session sweeper.
Go maps are modelled as association lists, Go byte strings as `List Nat`,
times as `Int` (unix seconds / microseconds passed explicitly), and
fallible operations return `Except` / an outcome type with an explicit
panic constructor where the Go code can panic.
-/

set_option maxRecDepth 10000

namespace DiceAuth

/-! ## Association-list maps (the Go `map` operations used by the service) -/

/-- Map lookup `m[k]`. -/
def lookupKV {κ α : Type} [DecidableEq κ] (k : κ) : List (κ × α) → Option α
  | [] => none
  | (k', v) :: rest => if k' = k then some v else lookupKV k rest

/-- Go `delete(m, k)`. -/
def eraseKV {κ α : Type} [DecidableEq κ] (k : κ) : List (κ × α) → List (κ × α)
  | [] => []
  | (k', v) :: rest => if k' = k then eraseKV k rest else (k', v) :: eraseKV k rest

/-- Go map assignment `m[k] = v` (replaces any existing binding). -/
def insertKV {κ α : Type} [DecidableEq κ] (k : κ) (v : α) (m : List (κ × α)) :
    List (κ × α) :=
  (k, v) :: eraseKV k m

theorem lookupKV_eraseKV_self {κ α : Type} [DecidableEq κ] (k : κ) (m : List (κ × α)) :
    lookupKV k (eraseKV k m) = none := by
  induction m with
  | nil => rfl
  | cons kv rest ih =>
    obtain ⟨k', v⟩ := kv
    by_cases h : k' = k
    · simp [eraseKV, h, ih]
    · simp [eraseKV, lookupKV, h, ih]

theorem lookupKV_eraseKV_ne {κ α : Type} [DecidableEq κ] {k k' : κ} (m : List (κ × α))
    (h : k' ≠ k) : lookupKV k' (eraseKV k m) = lookupKV k' m := by
  induction m with
  | nil => rfl
  | cons kv rest ih =>
    obtain ⟨k₀, v⟩ := kv
    by_cases h₀ : k₀ = k
    · subst h₀
      simp [eraseKV, lookupKV, Ne.symm h, ih]
    · by_cases h₁ : k₀ = k'
      · simp [eraseKV, lookupKV, h₀, h₁, h]
      · simp [eraseKV, lookupKV, h₀, h₁, ih]

theorem lookupKV_insertKV_self {κ α : Type} [DecidableEq κ] (k : κ) (v : α)
    (m : List (κ × α)) : lookupKV k (insertKV k v m) = some v := by
  simp [insertKV, lookupKV]

theorem lookupKV_insertKV_ne {κ α : Type} [DecidableEq κ] {k k' : κ} (v : α)
    (m : List (κ × α)) (h : k' ≠ k) :
    lookupKV k' (insertKV k v m) = lookupKV k' m := by
  simp [insertKV, lookupKV, Ne.symm h, lookupKV_eraseKV_ne m h]

theorem mem_eraseKV {κ α : Type} [DecidableEq κ] {k k' : κ} {v : α} {m : List (κ × α)} :
    (k', v) ∈ eraseKV k m ↔ (k', v) ∈ m ∧ k' ≠ k := by
  induction m with
  | nil => simp [eraseKV]
  | cons kv rest ih =>
    obtain ⟨k₀, v₀⟩ := kv
    by_cases h₀ : k₀ = k
    · subst h₀
      have hstep : eraseKV k₀ ((k₀, v₀) :: rest) = eraseKV k₀ rest := by
        simp [eraseKV]
      rw [hstep, ih, List.mem_cons]
      constructor
      · rintro ⟨hm, hne⟩
        exact ⟨Or.inr hm, hne⟩
      · rintro ⟨heq | hm, hne⟩
        · exact absurd (congrArg Prod.fst heq) hne
        · exact ⟨hm, hne⟩
    · simp only [eraseKV, if_neg h₀, List.mem_cons, ih]
      constructor
      · rintro (heq | ⟨hm, hne⟩)
        · refine ⟨Or.inl heq, ?_⟩
          have : k' = k₀ := congrArg Prod.fst heq
          simpa [this] using h₀
        · exact ⟨Or.inr hm, hne⟩
      · rintro ⟨heq | hm, hne⟩
        · exact Or.inl heq
        · exact Or.inr ⟨hm, hne⟩

theorem mem_insertKV {κ α : Type} [DecidableEq κ] {k k' : κ} {v v₀ : α}
    {m : List (κ × α)} :
    (k', v) ∈ insertKV k v₀ m ↔ (k' = k ∧ v = v₀) ∨ ((k', v) ∈ m ∧ k' ≠ k) := by
  simp only [insertKV, List.mem_cons, Prod.mk.injEq, mem_eraseKV]

/-- The key multiset of an association list has no duplicates. -/
def keysNodup {κ α : Type} (m : List (κ × α)) : Prop :=
  (m.map Prod.fst).Nodup

instance {κ α : Type} [DecidableEq κ] (m : List (κ × α)) : Decidable (keysNodup m) :=
  inferInstanceAs (Decidable ((m.map Prod.fst).Nodup))

theorem keysNodup_eraseKV {κ α : Type} [DecidableEq κ] (k : κ) {m : List (κ × α)}
    (h : keysNodup m) : keysNodup (eraseKV k m) := by
  induction m with
  | nil => exact h
  | cons kv rest ih =>
    obtain ⟨k₀, v₀⟩ := kv
    simp only [keysNodup, List.map_cons, List.nodup_cons] at h
    by_cases h₀ : k₀ = k
    · simpa [eraseKV, h₀] using ih h.2
    · simp only [keysNodup, eraseKV, if_neg h₀, List.map_cons, List.nodup_cons]
      refine ⟨fun hmem => ?_, ih h.2⟩
      apply h.1
      simp only [List.mem_map] at hmem ⊢
      obtain ⟨kv, hkv, hfst⟩ := hmem
      obtain ⟨k₁, v₁⟩ := kv
      exact ⟨(k₁, v₁), (mem_eraseKV.mp hkv).1, hfst⟩

theorem not_mem_keys_eraseKV {κ α : Type} [DecidableEq κ] (k : κ) (m : List (κ × α)) :
    k ∉ (eraseKV k m).map Prod.fst := by
  intro hmem
  simp only [List.mem_map] at hmem
  obtain ⟨⟨k₁, v₁⟩, hkv, hfst⟩ := hmem
  exact (mem_eraseKV.mp hkv).2 (by simpa using hfst)

theorem keysNodup_insertKV {κ α : Type} [DecidableEq κ] (k : κ) (v : α)
    {m : List (κ × α)} (h : keysNodup m) : keysNodup (insertKV k v m) := by
  simp only [keysNodup, insertKV, List.map_cons, List.nodup_cons]
  exact ⟨not_mem_keys_eraseKV k m, keysNodup_eraseKV k h⟩

theorem lookupKV_eq_some_of_mem {κ α : Type} [DecidableEq κ] {k : κ} {v : α}
    {m : List (κ × α)} (hnd : keysNodup m) (hmem : (k, v) ∈ m) :
    lookupKV k m = some v := by
  induction m with
  | nil => cases hmem
  | cons kv rest ih =>
    obtain ⟨k₀, v₀⟩ := kv
    simp only [keysNodup, List.map_cons, List.nodup_cons] at hnd
    rcases List.mem_cons.mp hmem with heq | hmem'
    · cases heq; simp [lookupKV]
    · have hne : k₀ ≠ k := by
        intro h; subst h
        exact hnd.1 (List.mem_map.mpr ⟨(k₀, v), hmem', rfl⟩)
      simp [lookupKV, hne, ih hnd.2 hmem']

theorem mem_of_lookupKV_eq_some {κ α : Type} [DecidableEq κ] {k : κ} {v : α}
    {m : List (κ × α)} (h : lookupKV k m = some v) : (k, v) ∈ m := by
  induction m with
  | nil => cases h
  | cons kv rest ih =>
    obtain ⟨k₀, v₀⟩ := kv
    by_cases h₀ : k₀ = k
    · subst h₀
      simp only [lookupKV, if_pos rfl, if_true, Option.some.injEq] at h
      · exact List.mem_cons.mpr (Or.inl (by rw [h]))
    · simp only [lookupKV, if_neg h₀] at h
      exact List.mem_cons.mpr (Or.inr (ih h))

/-! ## Data model (`auth.go` types and error values) -/

/-- `SessionData` from auth.go: player id, session id, last-action unix seconds. -/
structure SessionData where
  PlayerID : String
  SessionID : String
  LastActionTime : Int
deriving DecidableEq, Repr

/-- The auth `Server` state: credential store (byte-string username → password),
session table, reverse index (player id → session id), and the incarnation
version captured at startup.  Go maps are association lists here. -/
structure Server where
  credentials : List (List Nat × List Nat)
  sessions : List (String × SessionData)
  activePlayerIDs : List (String × String)
  serverVersion : String
deriving DecidableEq, Repr

/-- `NewAuthServer` with the startup-time version passed explicitly. -/
def NewAuthServer (version : String) : Server :=
  { credentials := [], sessions := [], activePlayerIDs := [], serverVersion := version }

def serverNilErrorMsg : String := "provided auth server pointer is nil"

def missingSessionIDErrorMsg : String := "no session id header in the request"

def invalidSessionErrorMsg : String := "invalid session in request"

/-! ## Session-table operations -/

/-- `ValidateRequest` (the session `touch`): takes the optional `Session-Id`
header and the current unix-seconds time; on success returns the updated
server (last-action time refreshed). -/
def ValidateRequest (as : Server) (sessionIdHeader : Option String) (now : Int) :
    Except String Server :=
  match sessionIdHeader with
  | none => .error missingSessionIDErrorMsg
  | some sID =>
    match lookupKV sID as.sessions with
    | none => .error invalidSessionErrorMsg
    | some activeSession =>
      if sID ≠ activeSession.SessionID then .error invalidSessionErrorMsg
      else
        .ok { as with
              sessions := insertKV sID
                ⟨activeSession.PlayerID, activeSession.SessionID, now⟩ as.sessions }

/-- `deleteSession`: removes the session and its reverse-index entry;
fails when the token is not in the table. -/
def deleteSession (as : Server) (sessionID : String) : Except String Server :=
  match lookupKV sessionID as.sessions with
  | none => .error invalidSessionErrorMsg
  | some session =>
    .ok { as with
          activePlayerIDs := eraseKV session.PlayerID as.activePlayerIDs,
          sessions := eraseKV sessionID as.sessions }

/-- The `range` loop body of `deleteAllStaleSessions`, iterating over an
explicit list of observed entries.  On a `deleteSession` error the loop
returns immediately with the state mutated so far (Go mutates in place, so
an error does not roll anything back). -/
def deleteStaleLoop (entries : List (String × SessionData)) (unixNow expirySeconds : Int)
    (as : Server) : Server × Option String :=
  match entries with
  | [] => (as, none)
  | (sID, session) :: rest =>
    if unixNow - session.LastActionTime > expirySeconds then
      match deleteSession as sID with
      | .error e => (as, some e)
      | .ok as' => deleteStaleLoop rest unixNow expirySeconds as'
    else
      deleteStaleLoop rest unixNow expirySeconds as

/-- `deleteAllStaleSessions`: sweeps the current session table. -/
def deleteAllStaleSessions (as : Server) (timeNow expirySeconds : Int) :
    Server × Option String :=
  deleteStaleLoop as.sessions timeNow expirySeconds as

/-- One scheduled tick of the sweeper: the tick time together with the list
of entries the (unlocked) `range` loop observes.  In a race-free execution
`view` is exactly the current session table; a concurrent deletion between
the `range` read and the locked `deleteSession` call makes `view` contain an
entry that is no longer in the table. -/
structure SweepTick where
  now : Int
  view : List (String × SessionData)
deriving DecidableEq, Repr

/-- The sweeper goroutine of `StartPeriodicSessionSweep`: processes ticks in
order; when a tick's `deleteAllStaleSessions` returns an error the goroutine
`return`s, so no further tick is processed. -/
def runSweeper (expirySeconds : Int) (ticks : List SweepTick) (as : Server) : Server :=
  match ticks with
  | [] => as
  | t :: rest =>
    match deleteStaleLoop t.view t.now expirySeconds as with
    | (as', some _) => as'
    | (as', none) => runSweeper expirySeconds rest as'

/-! ## The single-session invariant -/

/-- The session-table invariant: no duplicate keys in either map, every
session is stored under its own token, the reverse index points back at the
session, and every reverse-index entry names a live session of that player. -/
def Invariant (as : Server) : Prop :=
  keysNodup as.sessions ∧ keysNodup as.activePlayerIDs ∧
  (∀ e ∈ as.sessions, e.2.SessionID = e.1) ∧
  (∀ e ∈ as.sessions, lookupKV e.2.PlayerID as.activePlayerIDs = some e.1) ∧
  (∀ e ∈ as.activePlayerIDs,
    Option.map SessionData.PlayerID (lookupKV e.2 as.sessions) = some e.1)

instance (as : Server) : Decidable (Invariant as) := by
  unfold Invariant
  infer_instance

/-! ## base64 (the subset of `encoding/base64.StdEncoding.DecodeString` used) -/

/-- Value of one standard-alphabet base64 character byte. -/
def b64Val (c : Nat) : Option Nat :=
  if 65 ≤ c ∧ c ≤ 90 then some (c - 65)
  else if 97 ≤ c ∧ c ≤ 122 then some (c - 97 + 26)
  else if 48 ≤ c ∧ c ≤ 57 then some (c - 48 + 52)
  else if c = 43 then some 62
  else if c = 47 then some 63
  else none

/-- Decode 4-character quanta; `=` padding is only legal at the end, and a
total length that is not a multiple of 4 is corrupt input. -/
def b64DecodeGroups : List Nat → Option (List Nat)
  | [] => some []
  | c0 :: c1 :: c2 :: c3 :: rest =>
    match b64Val c0, b64Val c1 with
    | some v0, some v1 =>
      if c2 = 61 then
        if c3 = 61 ∧ rest = [] then some [v0 * 4 + v1 / 16] else none
      else
        match b64Val c2 with
        | some v2 =>
          if c3 = 61 then
            if rest = [] then some [v0 * 4 + v1 / 16, (v1 % 16) * 16 + v2 / 4]
            else none
          else
            match b64Val c3 with
            | some v3 =>
              match b64DecodeGroups rest with
              | some bs =>
                some ((v0 * 4 + v1 / 16) :: ((v1 % 16) * 16 + v2 / 4) ::
                      ((v2 % 4) * 64 + v3) :: bs)
              | none => none
            | none => none
        | none => none
    | _, _ => none
  | _ => none

/-- `base64.StdEncoding.DecodeString` on byte strings (the decoder skips
carriage returns and newlines before processing quanta). -/
def base64Decode (input : List Nat) : Option (List Nat) :=
  b64DecodeGroups (input.filter (fun c => !(c == 10 || c == 13)))

/-! ## SHA-256 (`crypto/sha256`) and hex encoding (`encoding/hex`) -/

def m32 (x : Nat) : Nat := x % 4294967296

def rotr32 (n x : Nat) : Nat := m32 ((x >>> n) ||| (x <<< (32 - n)))

def shaCh (x y z : Nat) : Nat := (x &&& y) ^^^ ((x ^^^ 4294967295) &&& z)

def shaMaj (x y z : Nat) : Nat := (x &&& y) ^^^ (x &&& z) ^^^ (y &&& z)

def bigSigma0 (x : Nat) : Nat := rotr32 2 x ^^^ rotr32 13 x ^^^ rotr32 22 x

def bigSigma1 (x : Nat) : Nat := rotr32 6 x ^^^ rotr32 11 x ^^^ rotr32 25 x

def smallSigma0 (x : Nat) : Nat := rotr32 7 x ^^^ rotr32 18 x ^^^ (x >>> 3)

def smallSigma1 (x : Nat) : Nat := rotr32 17 x ^^^ rotr32 19 x ^^^ (x >>> 10)

def sha256K : List Nat :=
  [1116352408, 1899447441, 3049323471, 3921009573, 961987163,
   1508970993, 2453635748, 2870763221, 3624381080, 310598401,
   607225278, 1426881987, 1925078388, 2162078206, 2614888103,
   3248222580, 3835390401, 4022224774, 264347078, 604807628,
   770255983, 1249150122, 1555081692, 1996064986, 2554220882,
   2821834349, 2952996808, 3210313671, 3336571891, 3584528711,
   113926993, 338241895, 666307205, 773529912, 1294757372,
   1396182291, 1695183700, 1986661051, 2177026350, 2456956037,
   2730485921, 2820302411, 3259730800, 3345764771, 3516065817,
   3600352804, 4094571909, 275423344, 430227734, 506948616,
   659060556, 883997877, 958139571, 1322822218, 1537002063,
   1747873779, 1955562222, 2024104815, 2227730452, 2361852424,
   2428436474, 2756734187, 3204031479, 3329325298]

def sha256H0 : List Nat :=
  [1779033703, 3144134277, 1013904242, 2773480762,
   1359893119, 2600822924, 528734635, 1541459225]

/-- Merkle–Damgård padding: `0x80`, zeros to 56 mod 64, then the bit length
as 8 big-endian bytes. -/
def sha256Pad (msg : List Nat) : List Nat :=
  let len := msg.length
  let zeros := (64 + 56 - ((len + 1) % 64)) % 64
  msg ++ [128] ++ List.replicate zeros 0 ++
    (List.range 8).map (fun i => ((8 * len) >>> (8 * (7 - i))) % 256)

/-- Fold the compression function over successive 64-byte blocks; the fuel
argument (any bound on the block count, e.g. the byte length) makes the
recursion structural. -/
def sha256Blocks (compress : List Nat → List Nat → List Nat) :
    Nat → List Nat → List Nat → List Nat
  | 0, _, hs => hs
  | _ + 1, [], hs => hs
  | fuel + 1, b :: l, hs =>
    sha256Blocks compress fuel ((b :: l).drop 64) (compress hs ((b :: l).take 64))

/-- Big-endian 32-bit words of a block. -/
def bytesToWords : List Nat → List Nat
  | b0 :: b1 :: b2 :: b3 :: rest =>
    (b0 * 16777216 + b1 * 65536 + b2 * 256 + b3) :: bytesToWords rest
  | _ => []

/-- Extend the 16 block words to the 64-entry message schedule. -/
def sha256Extend (ws : List Nat) : List Nat :=
  (List.range 48).foldl
    (fun acc _ =>
      let n := acc.length
      let s0 := smallSigma0 (acc.getD (n - 15) 0)
      let s1 := smallSigma1 (acc.getD (n - 2) 0)
      acc ++ [m32 (acc.getD (n - 16) 0 + s0 + acc.getD (n - 7) 0 + s1)])
    ws

/-- One SHA-256 compression round over the working variables `[a,...,h]`. -/
def sha256Round (w : List Nat) (st : List Nat) (t : Nat) : List Nat :=
  match st with
  | [a, b, c, d, e, f, g, h] =>
    let t1 := m32 (h + bigSigma1 e + shaCh e f g + sha256K.getD t 0 + w.getD t 0)
    let t2 := m32 (bigSigma0 a + shaMaj a b c)
    [m32 (t1 + t2), a, b, c, m32 (d + t1), e, f, g]
  | other => other

/-- Compress one 64-byte block into the hash state. -/
def sha256Compress (hs : List Nat) (block : List Nat) : List Nat :=
  let w := sha256Extend (bytesToWords block)
  let final := (List.range 64).foldl (sha256Round w) hs
  List.zipWith (fun x y => m32 (x + y)) hs final

/-- SHA-256 digest (32 bytes) of a byte string. -/
def sha256 (msg : List Nat) : List Nat :=
  let padded := sha256Pad msg
  let hs := sha256Blocks sha256Compress padded.length padded sha256H0
  hs.foldr
    (fun wrd acc =>
      (wrd >>> 24) % 256 :: (wrd >>> 16) % 256 :: (wrd >>> 8) % 256 :: wrd % 256 :: acc)
    []

def hexChar (n : Nat) : Char :=
  if n < 10 then Char.ofNat (48 + n) else Char.ofNat (87 + n)

/-- `hex.EncodeToString` (lowercase). -/
def hexEncode (bytes : List Nat) : String :=
  String.mk (bytes.foldr (fun b acc => hexChar (b / 16) :: hexChar (b % 16) :: acc) [])

/-! ## Credential decoding and player-id derivation -/

/-- Splitting a byte string on `':'` (`strings.Split(s, ":")`). -/
def splitOnColon : List Nat → List (List Nat)
  | [] => [[]]
  | c :: rest =>
    let parts := splitOnColon rest
    if c = 58 then [] :: parts
    else
      match parts with
      | [] => [[c]]
      | p :: ps => (c :: p) :: ps

/-- Outcome of code that can either panic, return an error, or succeed. -/
inductive DecodeResult where
  | panicked : String → DecodeResult
  | err : String → DecodeResult
  | ok : List Nat → List Nat → DecodeResult
deriving DecidableEq, Repr

/-- `decodeAuthHeaderPayload`: slices off the 6-byte `Basic ` prefix (a Go
slice `s[6:]` panics when the value is shorter than 6 bytes), base64-decodes
the rest, splits on `':'`, and indexes parts 0 and 1 (indexing part 1
panics when the decoded payload contains no colon). -/
def decodeAuthHeaderPayload (encodedCred : List Nat) : DecodeResult :=
  if encodedCred.length < 6 then
    .panicked "slice bounds out of range"
  else
    match base64Decode (encodedCred.drop 6) with
    | none => .err "cannot decode the given credentials"
    | some decodedCred =>
      match splitOnColon decodedCred with
      | p0 :: p1 :: _ => .ok p0 p1
      | _ => .panicked "index out of range"

/-- `generatePlayerID`: hex of the first 4 bytes of the SHA-256 digest of the
username; empty input is an error. -/
def generatePlayerID (input : List Nat) : Except String String :=
  if input = [] then .error "input is empty"
  else .ok (hexEncode ((sha256 input).take 4))

/-! ## HTTP handlers -/

/-- The JSON login request body. -/
structure LoginRequestBody where
  IsNewUser : Bool
  ServerVersion : String
deriving DecidableEq, Repr

/-- The JSON login response body. -/
structure LoginResponse where
  playerID : String
  serverVersion : String
deriving DecidableEq, Repr

/-- A response body: either plain text (`http.Error` / `success`) or the
JSON-encoded `LoginResponse`. -/
inductive RespBody where
  | text : String → RespBody
  | login : LoginResponse → RespBody
deriving DecidableEq, Repr

/-- An HTTP response: status, body, and the optional `Session-Id` header. -/
structure HttpResponse where
  status : Nat
  body : RespBody
  sessionIdHeader : Option String
deriving DecidableEq, Repr

/-- A handler either panics or produces a response and the post-state. -/
inductive HandlerOutcome where
  | panicked : String → HandlerOutcome
  | resp : HttpResponse → Server → HandlerOutcome
deriving DecidableEq, Repr

/-- Lines 162–196 of the login handler: player-id generation, session-id
minting from the microsecond clock, supersession of an existing session for
the same player, and insertion of the new session. -/
def loginSession (as : Server) (usr : List Nat) (nowSec nowMicro : Int) :
    HandlerOutcome :=
  match generatePlayerID usr with
  | .error _ => .resp ⟨500, .text "could not generate player id", none⟩ as
  | .ok pID =>
    let sID := toString nowMicro
    let sessions1 :=
      match lookupKV pID as.activePlayerIDs with
      | some otherSession => eraseKV otherSession as.sessions
      | none => as.sessions
    let as' := { as with
                 sessions := insertKV sID ⟨pID, sID, nowSec⟩ sessions1,
                 activePlayerIDs := insertKV pID sID as.activePlayerIDs }
    .resp ⟨200, .login ⟨pID, as.serverVersion⟩, some sID⟩ as'

/-- The credential-check-then-mint-session part of the login handler
(lines 140–196), with the new-user flag already resolved. -/
def loginCore (as : Server) (usr pwd : List Nat) (isNewUser : Bool)
    (nowSec nowMicro : Int) : HandlerOutcome :=
  if isNewUser then
    match lookupKV usr as.credentials with
    | some _ =>
      .resp ⟨400, .text "username already exists, cannot create new user", none⟩ as
    | none =>
      loginSession { as with credentials := insertKV usr pwd as.credentials }
        usr nowSec nowMicro
  else
    match lookupKV usr as.credentials with
    | some password =>
      if password = pwd then loginSession as usr nowSec nowMicro
      else .resp ⟨400, .text "invalid credentials", none⟩ as
    | none => .resp ⟨400, .text "invalid credentials", none⟩ as

/-- `HandleLoginRequest`: header check, credential decode, body decode,
server-version comparison forcing the new-user flag, then `loginCore`. -/
def HandleLoginRequest (as : Server) (authHeader : Option (List Nat))
    (body : Option LoginRequestBody) (nowSec nowMicro : Int) : HandlerOutcome :=
  match authHeader with
  | none =>
    .resp ⟨400, .text "received login request without the required header", none⟩ as
  | some hdr =>
    match decodeAuthHeaderPayload hdr with
    | .panicked m => .panicked m
    | .err _ => .resp ⟨400, .text "cannot decode the given credentials", none⟩ as
    | .ok usr pwd =>
      match body with
      | none => .resp ⟨400, .text "could not decode request body", none⟩ as
      | some lrb =>
        let isNewUser :=
          if lrb.ServerVersion ≠ as.serverVersion then true else lrb.IsNewUser
        loginCore as usr pwd isNewUser nowSec nowMicro

/-- `HandleLogoutRequest`: validates the session (touching it), then deletes
it; a validation failure is a 401 with the error surfaced after the
`session error: ` tag. -/
def HandleLogoutRequest (as : Server) (sessionIdHeader : Option String) (now : Int) :
    HandlerOutcome :=
  match ValidateRequest as sessionIdHeader now with
  | .error e => .resp ⟨401, .text ("session error: " ++ e), none⟩ as
  | .ok as1 =>
    match sessionIdHeader with
    | none => .panicked "index out of range"
    | some sID =>
      match deleteSession as1 sID with
      | .error e => .resp ⟨500, .text ("could not delete session: " ++ e), none⟩ as1
      | .ok as2 => .resp ⟨200, .text "success", none⟩ as2

/-- `HandleValidateRequest`: wraps `ValidateRequest`; note that the 401
branch writes `serverNilError.Error()` as the response body, not the
validation error it just received. -/
def HandleValidateRequest (as : Server) (sessionIdHeader : Option String) (now : Int) :
    HandlerOutcome :=
  match ValidateRequest as sessionIdHeader now with
  | .error _ => .resp ⟨401, .text serverNilErrorMsg, none⟩ as
  | .ok as1 => .resp ⟨200, .text "success", none⟩ as1

/-! ## Reachable states

Session tokens are decimal renderings of a strictly increasing microsecond
clock, so a freshly minted token is never already a key of the session
table; the login step records that as its `fresh` side condition. -/

/-- One state transition of the auth server: a login attempt (any outcome —
failed attempts can still mutate the credential store), a successful
validation touch, a logout attempt (any outcome), or one sweep pass. -/
inductive Step : Server → Server → Prop where
  | login (usr pwd : List Nat) (isNewUser : Bool) (nowSec nowMicro : Int)
      (r : HttpResponse) (as as' : Server)
      (fresh : lookupKV (toString nowMicro) as.sessions = none)
      (h : loginCore as usr pwd isNewUser nowSec nowMicro = .resp r as') :
      Step as as'
  | validate (hdr : Option String) (now : Int) (as as' : Server)
      (h : ValidateRequest as hdr now = .ok as') : Step as as'
  | logout (hdr : Option String) (now : Int) (r : HttpResponse) (as as' : Server)
      (h : HandleLogoutRequest as hdr now = .resp r as') : Step as as'
  | sweep (now expirySeconds : Int) (as : Server) :
      Step as (deleteAllStaleSessions as now expirySeconds).1

/-- States reachable from a fresh auth server. -/
def Reachable (version : String) (as : Server) : Prop :=
  Relation.ReflTransGen Step (NewAuthServer version) as

/-! ## Concrete states used by the witnesses and counterexamples -/

/-- The state after user `u` (bytes `[117]`) logs in as a new user at
microsecond 1. -/
def dlServer1 : Server :=
  { credentials := [([117], [112])],
    sessions := [("1", ⟨"0bfe935e", "1", 0⟩)],
    activePlayerIDs := [("0bfe935e", "1")],
    serverVersion := "v" }

/-- The state after user `u` then logs in again at microsecond 2. -/
def dlServer2 : Server :=
  { credentials := [([117], [112])],
    sessions := [("2", ⟨"0bfe935e", "2", 0⟩)],
    activePlayerIDs := [("0bfe935e", "2")],
    serverVersion := "v" }

/-- A server holding one stale session `"2"`. -/
def swServer : Server :=
  { credentials := [], sessions := [("2", ⟨"p2", "2", 0⟩)],
    activePlayerIDs := [("p2", "2")], serverVersion := "v" }

/-- Tick 1 observes an entry (`"1"`) that a concurrent logout has already
removed from the table, so its `deleteSession` call errors. -/
def swTick1 : SweepTick := ⟨100, [("1", ⟨"p1", "1", 0⟩)]⟩

/-- Tick 2 observes the real table. -/
def swTick2 : SweepTick := ⟨100, [("2", ⟨"p2", "2", 0⟩)]⟩

/-- Server with one session whose lastAction is unix second 5. -/
def touchServer : Server :=
  { credentials := [], sessions := [("100", ⟨"p", "100", 5⟩)],
    activePlayerIDs := [("p", "100")], serverVersion := "v" }

/-- Spec scenario 3: session `"10"` is 25 hours old (90000 s), session
`"20"` is 10 hours old (36000 s), sweep threshold 24 hours (86400 s). -/
def sweepExServer : Server :=
  { credentials := [],
    sessions := [("10", ⟨"pa", "10", 10000⟩), ("20", ⟨"pb", "20", 64000⟩)],
    activePlayerIDs := [("pa", "10"), ("pb", "20")],
    serverVersion := "v" }

/-- A server with one live session, for the C8 witness. -/
def loServer : Server :=
  { credentials := [([117], [112])],
    sessions := [("50", ⟨"pl", "50", 3⟩)],
    activePlayerIDs := [("pl", "50")],
    serverVersion := "v" }

/-- `loServer` after token `"50"` is logged out at time 4. -/
def loServerOut : Server :=
  { credentials := [([117], [112])],
    sessions := [],
    activePlayerIDs := [],
    serverVersion := "v" }

/-- Witness state for C7 where the username `u` is already taken. -/
def c7Taken : Server :=
  { credentials := [([117], [99])], sessions := [], activePlayerIDs := [],
    serverVersion := "srv" }

/-- The state after `u` logs in as a new user with the other password `q`. -/
def c9Server : Server :=
  { credentials := [([117], [113])],
    sessions := [("1", ⟨"0bfe935e", "1", 0⟩)],
    activePlayerIDs := [("0bfe935e", "1")],
    serverVersion := "v" }

/-! ## Preservation of the invariant -/

theorem invariant_credentials {as : Server} (c : List (List Nat × List Nat)) :
    Invariant { as with credentials := c } ↔ Invariant as :=
  Iff.rfl

theorem inv_ValidateRequest {as as' : Server} {hdr : Option String} {now : Int}
    (hinv : Invariant as) (h : ValidateRequest as hdr now = .ok as') :
    Invariant as' := by
  obtain ⟨hnd1, hnd2, hown, hfwd, hrev⟩ := hinv
  unfold ValidateRequest at h
  split at h
  · cases h
  rename_i sID
  split at h
  · cases h
  rename_i act hl
  split at h
  · cases h
  · have hactid : act.SessionID = sID := hown (sID, act) (mem_of_lookupKV_eq_some hl)
    injection h with h'
    subst h'
    refine ⟨keysNodup_insertKV _ _ hnd1, hnd2, ?_, ?_, ?_⟩
    · rintro ⟨k', d⟩ he
      rcases mem_insertKV.mp he with ⟨hk, hd⟩ | ⟨hmem, hk⟩
      · rw [hd, hk]
        simpa using hactid
      · exact hown (k', d) hmem
    · rintro ⟨k', d⟩ he
      rcases mem_insertKV.mp he with ⟨hk, hd⟩ | ⟨hmem, hk⟩
      · rw [hd, hk]
        simpa using hfwd (sID, act) (mem_of_lookupKV_eq_some hl)
      · exact hfwd (k', d) hmem
    · rintro ⟨p, s⟩ he
      have hold := hrev (p, s) he
      by_cases hs : s = sID
      · subst hs
        rw [hl] at hold
        simp only [lookupKV_insertKV_self]
        simpa using hold
      · rw [lookupKV_insertKV_ne _ _ hs]
        exact hold

theorem inv_deleteSession {as as' : Server} {sID : String}
    (hinv : Invariant as) (h : deleteSession as sID = .ok as') :
    Invariant as' := by
  obtain ⟨hnd1, hnd2, hown, hfwd, hrev⟩ := hinv
  unfold deleteSession at h
  split at h
  · cases h
  next d hl =>
    injection h with h'
    subst h'
    refine ⟨keysNodup_eraseKV _ hnd1, keysNodup_eraseKV _ hnd2, ?_, ?_, ?_⟩
    · rintro ⟨k', d'⟩ he
      exact hown (k', d') (mem_eraseKV.mp he).1
    · rintro ⟨k', d'⟩ he
      obtain ⟨hmem, hk⟩ := mem_eraseKV.mp he
      have hold := hfwd (k', d') hmem
      have hpne : d'.PlayerID ≠ d.PlayerID := by
        intro hpe
        have hd := hfwd (sID, d) (mem_of_lookupKV_eq_some hl)
        rw [hpe] at hold
        simp only at hold hd
        rw [hold] at hd
        exact hk (by injection hd)
      rw [lookupKV_eraseKV_ne _ hpne]
      exact hold
    · rintro ⟨p, s⟩ he
      obtain ⟨hmem, hk⟩ := mem_eraseKV.mp he
      have hold := hrev (p, s) hmem
      have hsne : s ≠ sID := by
        intro hse
        subst hse
        rw [hl] at hold
        simp only [Option.map_some] at hold
        exact hk (Option.some.inj hold).symm
      rw [lookupKV_eraseKV_ne _ hsne]
      exact hold

theorem inv_loginSession {as as' : Server} {usr : List Nat} {nowSec nowMicro : Int}
    {r : HttpResponse} (hinv : Invariant as)
    (fresh : lookupKV (toString nowMicro) as.sessions = none)
    (h : loginSession as usr nowSec nowMicro = .resp r as') : Invariant as' := by
  obtain ⟨hnd1, hnd2, hown, hfwd, hrev⟩ := hinv
  unfold loginSession at h
  split at h
  · injection h with _ h'
    subst h'
    exact ⟨hnd1, hnd2, hown, hfwd, hrev⟩
  rename_i pID hgen
  simp only at h
  injection h with _ h'
  subst h'
  split
  case _ other hap =>
    have hother := hrev (pID, other) (mem_of_lookupKV_eq_some hap)
    simp only at hother
    cases hlo : lookupKV other as.sessions with
    | none => rw [hlo] at hother; cases hother
    | some dOther =>
      rw [hlo] at hother
      have hdopid : dOther.PlayerID = pID := Option.some.inj hother
      refine ⟨keysNodup_insertKV _ _ (keysNodup_eraseKV _ hnd1),
              keysNodup_insertKV _ _ hnd2, ?_, ?_, ?_⟩
      · rintro ⟨k', d⟩ he
        rcases mem_insertKV.mp he with ⟨hk, hd⟩ | ⟨hmem, hk⟩
        · rw [hd, hk]
        · exact hown (k', d) (mem_eraseKV.mp hmem).1
      · rintro ⟨k', d⟩ he
        rcases mem_insertKV.mp he with ⟨hk, hd⟩ | ⟨hmem, hk⟩
        · rw [hd, hk]
          exact lookupKV_insertKV_self _ _ _
        · obtain ⟨hmem', hko⟩ := mem_eraseKV.mp hmem
          have hold := hfwd (k', d) hmem'
          have hpne : d.PlayerID ≠ pID := by
            intro hpe
            rw [hpe, hap] at hold
            exact hko (Option.some.inj hold).symm
          simpa [lookupKV_insertKV_ne _ _ hpne] using hold
      · rintro ⟨p, s⟩ he
        rcases mem_insertKV.mp he with ⟨hp, hs⟩ | ⟨hmem, hp⟩
        · rw [hp, hs]
          simp [lookupKV_insertKV_self]
        · have hold := hrev (p, s) hmem
          cases hls : lookupKV s as.sessions with
          | none => rw [hls] at hold; cases hold
          | some d' =>
            rw [hls] at hold
            have hd'p : d'.PlayerID = p := Option.some.inj hold
            have hsne : s ≠ toString nowMicro := by
              intro hse
              rw [hse, fresh] at hls
              cases hls
            have hsno : s ≠ other := by
              intro hse
              rw [hse, hlo] at hls
              have : dOther = d' := Option.some.inj hls
              rw [← this] at hd'p
              exact hp (by rw [← hd'p, hdopid])
            simp only
            rw [lookupKV_insertKV_ne _ _ hsne, lookupKV_eraseKV_ne _ hsno, hls]
            exact congrArg some hd'p
  case _ hap =>
    refine ⟨keysNodup_insertKV _ _ hnd1, keysNodup_insertKV _ _ hnd2, ?_, ?_, ?_⟩
    · rintro ⟨k', d⟩ he
      rcases mem_insertKV.mp he with ⟨hk, hd⟩ | ⟨hmem, hk⟩
      · rw [hd, hk]
      · exact hown (k', d) hmem
    · rintro ⟨k', d⟩ he
      rcases mem_insertKV.mp he with ⟨hk, hd⟩ | ⟨hmem, hk⟩
      · rw [hd, hk]
        exact lookupKV_insertKV_self _ _ _
      · have hold := hfwd (k', d) hmem
        have hpne : d.PlayerID ≠ pID := by
          intro hpe
          rw [hpe, hap] at hold
          cases hold
        simpa [lookupKV_insertKV_ne _ _ hpne] using hold
    · rintro ⟨p, s⟩ he
      rcases mem_insertKV.mp he with ⟨hp, hs⟩ | ⟨hmem, hp⟩
      · rw [hp, hs]
        simp [lookupKV_insertKV_self]
      · have hold := hrev (p, s) hmem
        have hsne : s ≠ toString nowMicro := by
          intro hse
          rw [hse, fresh] at hold
          cases hold
        simpa [lookupKV_insertKV_ne _ _ hsne] using hold

theorem inv_loginCore {as as' : Server} {usr pwd : List Nat} {isNew : Bool}
    {nowSec nowMicro : Int} {r : HttpResponse}
    (hinv : Invariant as) (fresh : lookupKV (toString nowMicro) as.sessions = none)
    (h : loginCore as usr pwd isNew nowSec nowMicro = .resp r as') : Invariant as' := by
  unfold loginCore at h
  split at h
  · split at h
    · injection h with _ h'
      subst h'
      exact hinv
    · exact inv_loginSession
        ((invariant_credentials (insertKV usr pwd as.credentials)).mpr hinv) fresh h
  · split at h
    · split at h
      · exact inv_loginSession hinv fresh h
      · injection h with _ h'
        subst h'
        exact hinv
    · injection h with _ h'
      subst h'
      exact hinv

theorem inv_deleteStaleLoop {entries : List (String × SessionData)}
    {unixNow expirySeconds : Int} {as : Server} (hinv : Invariant as) :
    Invariant (deleteStaleLoop entries unixNow expirySeconds as).1 := by
  induction entries generalizing as with
  | nil => exact hinv
  | cons e rest ih =>
    obtain ⟨sID, sess⟩ := e
    unfold deleteStaleLoop
    split
    · split
      · exact hinv
      · rename_i as1 hd
        exact ih (inv_deleteSession hinv hd)
    · exact ih hinv

theorem inv_HandleLogoutRequest {as as' : Server} {hdr : Option String} {now : Int}
    {r : HttpResponse} (hinv : Invariant as)
    (h : HandleLogoutRequest as hdr now = .resp r as') : Invariant as' := by
  unfold HandleLogoutRequest at h
  split at h
  · injection h with _ h'
    subst h'
    exact hinv
  rename_i as1 hv
  split at h
  · cases h
  split at h
  · injection h with _ h'
    subst h'
    exact inv_ValidateRequest hinv hv
  rename_i as2 hd
  injection h with _ h'
  subst h'
  exact inv_deleteSession (inv_ValidateRequest hinv hv) hd

theorem inv_Step {as as' : Server} (hinv : Invariant as) (h : Step as as') :
    Invariant as' := by
  cases h with
  | login usr pwd isNew nowSec nowMicro r a a' fresh hl =>
    exact inv_loginCore hinv fresh hl
  | validate hdr now a a' hv => exact inv_ValidateRequest hinv hv
  | logout hdr now r a a' hl => exact inv_HandleLogoutRequest hinv hl
  | sweep now expirySeconds a => exact inv_deleteStaleLoop hinv

theorem inv_NewAuthServer (v : String) : Invariant (NewAuthServer v) := by
  refine ⟨List.nodup_nil, List.nodup_nil, ?_, ?_, ?_⟩ <;> simp [NewAuthServer]

theorem inv_Reachable {v : String} {as : Server} (h : Reachable v as) : Invariant as := by
  unfold Reachable at h
  induction h with
  | refl => exact inv_NewAuthServer v
  | tail _ hstep ih => exact inv_Step ih hstep

/-- Characterization of a status-200 login: the response carries the derived
player id and the fresh token, the new session is inserted (superseding any
session the reverse index held for that player), and the reverse index now
maps the player to the fresh token. -/
theorem loginCore_success {as as' : Server} {usr pwd : List Nat} {isNew : Bool}
    {nowSec nowMicro : Int} {r : HttpResponse}
    (h : loginCore as usr pwd isNew nowSec nowMicro = .resp r as')
    (hst : r.status = 200) :
    ∃ pID, generatePlayerID usr = .ok pID ∧
      r = ⟨200, .login ⟨pID, as.serverVersion⟩, some (toString nowMicro)⟩ ∧
      as'.sessions = insertKV (toString nowMicro)
          ⟨pID, toString nowMicro, nowSec⟩
          (match lookupKV pID as.activePlayerIDs with
           | some other => eraseKV other as.sessions
           | none => as.sessions) ∧
      as'.activePlayerIDs = insertKV pID (toString nowMicro) as.activePlayerIDs ∧
      as'.serverVersion = as.serverVersion := by
  unfold loginCore at h
  split at h
  · split at h
    · injection h with h1 h2
      rw [← h1] at hst
      exact absurd hst (by decide)
    · unfold loginSession at h
      split at h
      · injection h with h1 h2
        rw [← h1] at hst
        exact absurd hst (by decide)
      rename_i pID hgen
      simp only at h
      injection h with h1 h2
      exact ⟨pID, hgen, h1.symm, by rw [← h2], by rw [← h2], by rw [← h2]⟩
  · split at h
    · split at h
      · unfold loginSession at h
        split at h
        · injection h with h1 h2
          rw [← h1] at hst
          exact absurd hst (by decide)
        rename_i pID hgen
        simp only at h
        injection h with h1 h2
        exact ⟨pID, hgen, h1.symm, by rw [← h2], by rw [← h2], by rw [← h2]⟩
      · injection h with h1 h2
        rw [← h1] at hst
        exact absurd hst (by decide)
    · injection h with h1 h2
      rw [← h1] at hst
      exact absurd hst (by decide)

/-! ## Claim theorems -/

/-- **C1**: starting from a fresh auth server, after any sequence of login,
validate (touch), logout, and sweep operations the session table satisfies
the single-session invariant: each token maps to exactly one player id, at
most one session exists per player id, and the reverse index agrees with the
table; and after a player logs in twice in succession exactly one token is
valid for that player — the second one — while the first token fails
subsequent validation. -/
theorem single_session_invariant :
    (∀ v as, Reachable v as → Invariant as) ∧
    (∀ as s₁ s₂ d₁ d₂, Invariant as →
       lookupKV s₁ as.sessions = some d₁ → lookupKV s₂ as.sessions = some d₂ →
       d₁.PlayerID = d₂.PlayerID → s₁ = s₂) ∧
    (∀ as usr pwd₁ pwd₂ isNew₁ isNew₂ t₁ m₁ t₂ m₂ r₁ r₂ as₁ as₂ now,
       Invariant as →
       lookupKV (toString m₁) as.sessions = none →
       loginCore as usr pwd₁ isNew₁ t₁ m₁ = .resp r₁ as₁ → r₁.status = 200 →
       lookupKV (toString m₂) as₁.sessions = none →
       loginCore as₁ usr pwd₂ isNew₂ t₂ m₂ = .resp r₂ as₂ → r₂.status = 200 →
       toString m₁ ≠ toString m₂ →
       (∃ as₃, ValidateRequest as₂ (some (toString m₂)) now = .ok as₃) ∧
       ValidateRequest as₂ (some (toString m₁)) now = .error invalidSessionErrorMsg ∧
       (∀ pID, generatePlayerID usr = .ok pID →
          lookupKV pID as₂.activePlayerIDs = some (toString m₂) ∧
          (∀ s d, lookupKV s as₂.sessions = some d → d.PlayerID = pID →
             s = toString m₂))) := by
  refine ⟨fun v as h => inv_Reachable h, ?_, ?_⟩
  · intro as s₁ s₂ d₁ d₂ hinv h₁ h₂ hp
    obtain ⟨_, _, _, hfwd, _⟩ := hinv
    have e₁ := hfwd (s₁, d₁) (mem_of_lookupKV_eq_some h₁)
    have e₂ := hfwd (s₂, d₂) (mem_of_lookupKV_eq_some h₂)
    simp only at e₁ e₂
    rw [hp] at e₁
    rw [e₁] at e₂
    exact Option.some.inj e₂
  · intro as usr pwd₁ pwd₂ isNew₁ isNew₂ t₁ m₁ t₂ m₂ r₁ r₂ as₁ as₂ now
      hinv f₁ hl₁ hs₁ f₂ hl₂ hs₂ hne
    obtain ⟨pA, hgenA, hrA, hsesA, hapiA, hverA⟩ := loginCore_success hl₁ hs₁
    obtain ⟨pB, hgenB, hrB, hsesB, hapiB, hverB⟩ := loginCore_success hl₂ hs₂
    have hpid : pA = pB := by
      rw [hgenA] at hgenB
      exact Except.ok.inj hgenB
    subst hpid
    have hlookA : lookupKV pA as₁.activePlayerIDs = some (toString m₁) := by
      rw [hapiA]
      exact lookupKV_insertKV_self _ _ _
    simp only [hlookA] at hsesB
    have hlook2 : lookupKV (toString m₂) as₂.sessions =
        some ⟨pA, toString m₂, t₂⟩ := by
      rw [hsesB]
      exact lookupKV_insertKV_self _ _ _
    have hlook1 : lookupKV (toString m₁) as₂.sessions = none := by
      rw [hsesB, lookupKV_insertKV_ne _ _ hne, lookupKV_eraseKV_self]
    have hinv₂ : Invariant as₂ :=
      inv_loginCore (inv_loginCore hinv f₁ hl₁) f₂ hl₂
    have hval2 : ValidateRequest as₂ (some (toString m₂)) now =
        .ok { as₂ with sessions := insertKV (toString m₂) (SessionData.mk pA (toString m₂) now) as₂.sessions } := by
      unfold ValidateRequest
      simp [hlook2]
    refine ⟨⟨_, hval2⟩, ?_, ?_⟩
    · unfold ValidateRequest
      simp [hlook1]
    · intro pID hpID
      have hpp : pA = pID := by
        rw [hgenA] at hpID
        exact Except.ok.inj hpID
      subst hpp
      constructor
      · rw [hapiB]
        exact lookupKV_insertKV_self _ _ _
      · intro s d hsd hdp
        obtain ⟨_, _, _, hfwd₂, _⟩ := hinv₂
        have e := hfwd₂ (s, d) (mem_of_lookupKV_eq_some hsd)
        simp only at e
        rw [hdp, hapiB, lookupKV_insertKV_self] at e
        exact (Option.some.inj e).symm

/-- Witness for the C1 theorem at a concrete double login of user `u`. -/
theorem single_session_invariant_witness :
    Invariant (NewAuthServer "v") ∧
    ValidateRequest dlServer2 (some "1") 7 = .error invalidSessionErrorMsg ∧
    lookupKV "0bfe935e" dlServer2.activePlayerIDs = some "2" := by
  have h := single_session_invariant
  have h1 := h.1 "v" (NewAuthServer "v") Relation.ReflTransGen.refl
  have h3 := h.2.2 (NewAuthServer "v") [117] [112] [112] true false 0 1 0 2
      (HttpResponse.mk 200 (.login ⟨"0bfe935e", "v"⟩) (some "1"))
      (HttpResponse.mk 200 (.login ⟨"0bfe935e", "v"⟩) (some "2"))
      dlServer1 dlServer2 7 h1 (by rfl) (by rfl) (by rfl) (by rfl) (by rfl)
      (by rfl) (by decide)
  exact ⟨h1, h3.2.1, (h3.2.2 "0bfe935e" (by rfl)).1⟩

/-- **C4** (amended): when the stale-session deletion performed on a tick
returns an error, the sweeper goroutine `return`s: the state reached during
the failing tick is final and no subsequent scheduled tick performs any
sweep.  (The claim as stated — that only the failing tick is aborted and
every later tick still sweeps — is refuted by the counterexample.) -/
theorem sweep_error_stops_sweeper {expirySeconds : Int} {t : SweepTick}
    {rest : List SweepTick} {as as' : Server} {e : String}
    (h : deleteStaleLoop t.view t.now expirySeconds as = (as', some e)) :
    runSweeper expirySeconds (t :: rest) as = as' := by
  unfold runSweeper
  rw [h]

/-- C4 counterexample: tick 1's deletion returns the invalid-session error,
and the sweeper then performs no sweep on tick 2 — the stale session `"2"`
survives even though running tick 2's sweep alone would delete it.  This
refutes "a sweep failure never stops future sweeps". -/
theorem sweep_error_stops_sweeper_counterexample :
    (deleteStaleLoop swTick1.view swTick1.now 10 swServer).2 =
      some invalidSessionErrorMsg ∧
    runSweeper 10 [swTick1, swTick2] swServer = swServer ∧
    lookupKV "2" (runSweeper 10 [swTick1, swTick2] swServer).sessions =
      some ⟨"p2", "2", 0⟩ ∧
    lookupKV "2" (deleteStaleLoop swTick2.view swTick2.now 10 swServer).1.sessions =
      none :=
  ⟨rfl, rfl, rfl, rfl⟩

/-- Witness for the amended C4 theorem at the concrete failing tick. -/
theorem sweep_error_stops_sweeper_witness :
    runSweeper 10 [swTick1, swTick2] swServer = swServer :=
  sweep_error_stops_sweeper (by rfl)

/-- **C5**: the claim says a failed internal validation responds 401 with
the touch error surfaced verbatim; the code instead writes
`serverNilError`'s message in the 401 branch (`auth.go` line 322), so the
response body never matches the touch error.  Evaluated at the failing
input: a request with no `Session-Id` header against a fresh (non-nil)
server. -/
theorem validate_handler_wrong_error :
    HandleValidateRequest (NewAuthServer "v") none 0 =
      .resp ⟨401, .text serverNilErrorMsg, none⟩ (NewAuthServer "v") ∧
    ValidateRequest (NewAuthServer "v") none 0 =
      .error missingSessionIDErrorMsg ∧
    serverNilErrorMsg ≠ missingSessionIDErrorMsg :=
  ⟨rfl, rfl, by decide⟩

/-- **C3** (amended): for a token present in the table, touch succeeds,
preserves the playerID, and sets the session's lastAction to the touch time
`now` — strictly forward exactly when `now` is strictly later than the
stored lastAction; a missing token fails with the missing-token error and an
unknown token with the invalid-session error.  (The claim's unconditional
"strictly greater" is refuted by the counterexample: touching within the
same unix second leaves lastAction unchanged.) -/
theorem touch_semantics :
    ∀ as sID d now, Invariant as →
    (ValidateRequest as none now = .error missingSessionIDErrorMsg) ∧
    (lookupKV sID as.sessions = none →
      ValidateRequest as (some sID) now = .error invalidSessionErrorMsg) ∧
    (lookupKV sID as.sessions = some d →
      ValidateRequest as (some sID) now =
        .ok { as with sessions := insertKV sID (SessionData.mk d.PlayerID sID now) as.sessions } ∧
      lookupKV sID (insertKV sID (SessionData.mk d.PlayerID sID now) as.sessions) =
        some ⟨d.PlayerID, sID, now⟩ ∧
      (d.LastActionTime < now →
        d.LastActionTime < (SessionData.mk d.PlayerID sID now).LastActionTime)) := by
  intro as sID d now hinv
  refine ⟨rfl, ?_, ?_⟩
  · intro hnone
    unfold ValidateRequest
    simp [hnone]
  · intro hl
    have hsid : d.SessionID = sID := hinv.2.2.1 (sID, d) (mem_of_lookupKV_eq_some hl)
    refine ⟨?_, lookupKV_insertKV_self _ _ _, fun hlt => hlt⟩
    unfold ValidateRequest
    simp only [hl, hsid]
    simp

/-- C3 counterexample: touching token `"100"` at `now = 5` — the same unix
second already stored — succeeds and returns the state entirely unchanged,
so the new lastAction (5) is not strictly greater than the previous one (5);
this refutes the claim's "updates the lastAction strictly forward". -/
theorem touch_semantics_counterexample :
    ValidateRequest touchServer (some "100") 5 = .ok touchServer ∧
    ¬ ((5 : Int) > 5) :=
  ⟨rfl, by decide⟩

theorem lookupKV_eq_none_of_not_mem {κ α : Type} [DecidableEq κ] {k : κ}
    {m : List (κ × α)} (h : k ∉ m.map Prod.fst) : lookupKV k m = none := by
  induction m with
  | nil => rfl
  | cons kv rest ih =>
    obtain ⟨k₀, v₀⟩ := kv
    simp only [List.map_cons, List.mem_cons] at h
    push_neg at h
    have h1 : k₀ ≠ k := Ne.symm h.1
    simp [lookupKV, h1, ih h.2]

/-- The sweep loop, run over a `keysNodup` list of entries that are all
present in the table of an `Invariant` state, never errors; it deletes
exactly the listed entries that are stale — each deletion removing the
session and its reverse-index entry — and leaves everything else unchanged. -/
theorem deleteStaleLoop_exact {entries : List (String × SessionData)}
    {unixNow expirySeconds : Int} {as : Server}
    (hinv : Invariant as) (hnd : keysNodup entries)
    (hsub : ∀ e ∈ entries, lookupKV e.1 as.sessions = some e.2) :
    ∃ as', deleteStaleLoop entries unixNow expirySeconds as = (as', none) ∧
      (∀ s dv, lookupKV s entries = some dv →
        unixNow - dv.LastActionTime > expirySeconds →
        lookupKV s as'.sessions = none) ∧
      (∀ s dv, lookupKV s entries = some dv →
        ¬ unixNow - dv.LastActionTime > expirySeconds →
        lookupKV s as'.sessions = lookupKV s as.sessions) ∧
      (∀ s, lookupKV s entries = none →
        lookupKV s as'.sessions = lookupKV s as.sessions) ∧
      (∀ p s₀ dv, lookupKV p as.activePlayerIDs = some s₀ →
        lookupKV s₀ entries = some dv →
        unixNow - dv.LastActionTime > expirySeconds →
        lookupKV p as'.activePlayerIDs = none) ∧
      (∀ p s₀ dv, lookupKV p as.activePlayerIDs = some s₀ →
        lookupKV s₀ entries = some dv →
        ¬ unixNow - dv.LastActionTime > expirySeconds →
        lookupKV p as'.activePlayerIDs = some s₀) ∧
      (∀ p s₀, lookupKV p as.activePlayerIDs = some s₀ →
        lookupKV s₀ entries = none →
        lookupKV p as'.activePlayerIDs = some s₀) ∧
      (∀ p, lookupKV p as.activePlayerIDs = none →
        lookupKV p as'.activePlayerIDs = none) ∧
      as'.credentials = as.credentials ∧ as'.serverVersion = as.serverVersion := by
  induction entries generalizing as with
  | nil =>
    refine ⟨as, rfl, ?_, ?_, fun s _ => rfl, ?_, ?_, fun p s₀ hpa _ => hpa,
      fun p hpa => hpa, rfl, rfl⟩
    · intro s dv h _
      cases h
    · intro s dv h _
      cases h
    · intro p s₀ dv _ h _
      cases h
    · intro p s₀ dv _ h _
      cases h
  | cons ent rest ih =>
    obtain ⟨sID, d⟩ := ent
    have hl : lookupKV sID as.sessions = some d :=
      hsub (sID, d) (List.mem_cons_self _ _)
    simp only [keysNodup, List.map_cons, List.nodup_cons] at hnd
    have hrnone : lookupKV sID rest = none :=
      lookupKV_eq_none_of_not_mem hnd.1
    have hfwdsid : lookupKV d.PlayerID as.activePlayerIDs = some sID := by
      have := hinv.2.2.2.1 (sID, d) (mem_of_lookupKV_eq_some hl)
      simpa using this
    unfold deleteStaleLoop
    by_cases hstale : unixNow - d.LastActionTime > expirySeconds
    · rw [if_pos hstale]
      have hds : deleteSession as sID = .ok { as with
          activePlayerIDs := eraseKV d.PlayerID as.activePlayerIDs,
          sessions := eraseKV sID as.sessions } := by
        unfold deleteSession
        rw [hl]
      rw [hds]
      have hinv₁ : Invariant { as with
          activePlayerIDs := eraseKV d.PlayerID as.activePlayerIDs,
          sessions := eraseKV sID as.sessions } := inv_deleteSession hinv hds
      have hsub₁ : ∀ e ∈ rest, lookupKV e.1
          (eraseKV sID as.sessions) = some e.2 := by
        intro e he
        have hne : e.1 ≠ sID := by
          intro hh
          exact hnd.1 (hh ▸ List.mem_map.mpr ⟨e, he, rfl⟩)
        rw [lookupKV_eraseKV_ne _ hne]
        exact hsub e (List.mem_cons_of_mem _ he)
      obtain ⟨as', heq, a1, a2, a3, b1, b2, b3, b4, hc, hv⟩ :=
        ih hinv₁ hnd.2 hsub₁
      refine ⟨as', heq, ?_, ?_, ?_, ?_, ?_, ?_, ?_, hc, hv⟩
      · intro s dv hsl hdvstale
        by_cases hs : sID = s
        · subst hs
          have := a3 sID hrnone
          rw [this, lookupKV_eraseKV_self]
        · simp only [lookupKV, if_neg hs] at hsl
          exact a1 s dv hsl hdvstale
      · intro s dv hsl hdvfresh
        by_cases hs : sID = s
        · subst hs
          have hddv : d = dv := by simpa [lookupKV] using hsl
          rw [← hddv] at hdvfresh
          exact absurd hstale hdvfresh
        · simp only [lookupKV, if_neg hs] at hsl
          have hne : s ≠ sID := fun hh => hs hh.symm
          rw [a2 s dv hsl hdvfresh, lookupKV_eraseKV_ne _ hne]
      · intro s hsl
        by_cases hs : sID = s
        · subst hs
          simp [lookupKV] at hsl
        · simp only [lookupKV, if_neg hs] at hsl
          have hne : s ≠ sID := fun hh => hs hh.symm
          rw [a3 s hsl, lookupKV_eraseKV_ne _ hne]
      · intro p s₀ dv hpa hsl hdvstale
        by_cases hs : sID = s₀
        · subst hs
          have hpd : d.PlayerID = p := by
            have := hinv.2.2.2.2 (p, sID) (mem_of_lookupKV_eq_some hpa)
            rw [hl] at this
            simpa using this
          subst hpd
          exact b4 d.PlayerID (lookupKV_eraseKV_self _ _)
        · simp only [lookupKV, if_neg hs] at hsl
          have hpne : p ≠ d.PlayerID := by
            intro hh
            rw [hh, hfwdsid] at hpa
            exact hs (Option.some.inj hpa)
          exact b1 p s₀ dv (by rw [lookupKV_eraseKV_ne _ hpne]; exact hpa)
            hsl hdvstale
      · intro p s₀ dv hpa hsl hdvfresh
        by_cases hs : sID = s₀
        · subst hs
          have hddv : d = dv := by simpa [lookupKV] using hsl
          rw [← hddv] at hdvfresh
          exact absurd hstale hdvfresh
        · simp only [lookupKV, if_neg hs] at hsl
          have hpne : p ≠ d.PlayerID := by
            intro hh
            rw [hh, hfwdsid] at hpa
            exact hs (Option.some.inj hpa)
          exact b2 p s₀ dv (by rw [lookupKV_eraseKV_ne _ hpne]; exact hpa)
            hsl hdvfresh
      · intro p s₀ hpa hsl
        by_cases hs : sID = s₀
        · subst hs
          simp [lookupKV] at hsl
        · simp only [lookupKV, if_neg hs] at hsl
          have hpne : p ≠ d.PlayerID := by
            intro hh
            rw [hh, hfwdsid] at hpa
            exact hs (Option.some.inj hpa)
          exact b3 p s₀ (by rw [lookupKV_eraseKV_ne _ hpne]; exact hpa) hsl
      · intro p hpa
        by_cases hp : p = d.PlayerID
        · exact b4 p (by rw [hp]; exact lookupKV_eraseKV_self _ _)
        · exact b4 p (by rw [lookupKV_eraseKV_ne _ hp]; exact hpa)
    · rw [if_neg hstale]
      have hsub₁ : ∀ e ∈ rest, lookupKV e.1 as.sessions = some e.2 :=
        fun e he => hsub e (List.mem_cons_of_mem _ he)
      obtain ⟨as', heq, a1, a2, a3, b1, b2, b3, b4, hc, hv⟩ :=
        ih hinv hnd.2 hsub₁
      refine ⟨as', heq, ?_, ?_, ?_, ?_, ?_, ?_, b4, hc, hv⟩
      · intro s dv hsl hdvstale
        by_cases hs : sID = s
        · subst hs
          have hddv : d = dv := by simpa [lookupKV] using hsl
          rw [← hddv] at hdvstale
          exact absurd hdvstale hstale
        · simp only [lookupKV, if_neg hs] at hsl
          exact a1 s dv hsl hdvstale
      · intro s dv hsl hdvfresh
        by_cases hs : sID = s
        · subst hs
          exact a3 sID hrnone
        · simp only [lookupKV, if_neg hs] at hsl
          exact a2 s dv hsl hdvfresh
      · intro s hsl
        by_cases hs : sID = s
        · subst hs
          simp [lookupKV] at hsl
        · simp only [lookupKV, if_neg hs] at hsl
          exact a3 s hsl
      · intro p s₀ dv hpa hsl hdvstale
        by_cases hs : sID = s₀
        · subst hs
          have hddv : d = dv := by simpa [lookupKV] using hsl
          rw [← hddv] at hdvstale
          exact absurd hdvstale hstale
        · simp only [lookupKV, if_neg hs] at hsl
          exact b1 p s₀ dv hpa hsl hdvstale
      · intro p s₀ dv hpa hsl hdvfresh
        by_cases hs : sID = s₀
        · subst hs
          exact b3 p sID hpa hrnone
        · simp only [lookupKV, if_neg hs] at hsl
          exact b2 p s₀ dv hpa hsl hdvfresh
      · intro p s₀ hpa hsl
        by_cases hs : sID = s₀
        · subst hs
          simp [lookupKV] at hsl
        · simp only [lookupKV, if_neg hs] at hsl
          exact b3 p s₀ hpa hsl

/-- **C6**: for every session table satisfying the session invariant, every
`now`, and every `staleAfterSeconds`, the sweep returns no error and deletes
exactly the sessions with `now - lastAction > staleAfterSeconds` — each
deletion also removing the session's reverse-index entry — while leaving
every session at or below the threshold (including one exactly at it)
present and unchanged, with its reverse-index entry intact. -/
theorem sweep_deletes_exactly_stale :
    ∀ as timeNow expirySeconds, Invariant as →
    ∃ as', deleteAllStaleSessions as timeNow expirySeconds = (as', none) ∧
      (∀ s d, lookupKV s as.sessions = some d →
        lookupKV s as'.sessions =
          if timeNow - d.LastActionTime > expirySeconds then none else some d) ∧
      (∀ s, lookupKV s as.sessions = none → lookupKV s as'.sessions = none) ∧
      (∀ p s, lookupKV p as.activePlayerIDs = some s →
        ∃ d, lookupKV s as.sessions = some d ∧
          lookupKV p as'.activePlayerIDs =
            if timeNow - d.LastActionTime > expirySeconds then none else some s) ∧
      (∀ p, lookupKV p as.activePlayerIDs = none →
        lookupKV p as'.activePlayerIDs = none) ∧
      as'.credentials = as.credentials ∧ as'.serverVersion = as.serverVersion := by
  intro as timeNow expirySeconds hinv
  obtain ⟨as', heq, a1, a2, a3, b1, b2, b3, b4, hc, hv⟩ :=
    deleteStaleLoop_exact hinv hinv.1
      (fun e he => lookupKV_eq_some_of_mem hinv.1 he)
  refine ⟨as', heq, ?_, ?_, ?_, b4, hc, hv⟩
  · intro s d hl
    by_cases hstale : timeNow - d.LastActionTime > expirySeconds
    · rw [if_pos hstale]
      exact a1 s d hl hstale
    · rw [if_neg hstale, a2 s d hl hstale, hl]
  · intro s hl
    exact (a3 s hl).trans hl
  · intro p s hpa
    have hrev := hinv.2.2.2.2 (p, s) (mem_of_lookupKV_eq_some hpa)
    cases hls : lookupKV s as.sessions with
    | none =>
      simp only at hrev
      rw [hls] at hrev
      cases hrev
    | some d =>
      refine ⟨d, rfl, ?_⟩
      by_cases hstale : timeNow - d.LastActionTime > expirySeconds
      · rw [if_pos hstale]
        exact b1 p s d hpa hls hstale
      · rw [if_neg hstale]
        exact b2 p s d hpa hls hstale

/-- Witness for the C6 theorem at the spec's end-to-end scenario 3. -/
theorem sweep_deletes_exactly_stale_witness :
    lookupKV "10" (deleteAllStaleSessions sweepExServer 100000 86400).1.sessions = none ∧
    lookupKV "20" (deleteAllStaleSessions sweepExServer 100000 86400).1.sessions =
      some ⟨"pb", "20", 64000⟩ ∧
    lookupKV "pa" (deleteAllStaleSessions sweepExServer 100000 86400).1.activePlayerIDs = none ∧
    lookupKV "pb" (deleteAllStaleSessions sweepExServer 100000 86400).1.activePlayerIDs =
      some "20" ∧
    (deleteAllStaleSessions sweepExServer 100000 86400).2 = none := by
  obtain ⟨as', heq, hs, hn, hap, hapn, hc, hv⟩ :=
    sweep_deletes_exactly_stale sweepExServer 100000 86400 (by decide)
  rw [heq]
  have h10 := hs "10" ⟨"pa", "10", 10000⟩ (by rfl)
  have h20 := hs "20" ⟨"pb", "20", 64000⟩ (by rfl)
  obtain ⟨da, hda, hpa⟩ := hap "pa" "10" (by rfl)
  obtain ⟨db, hdb, hpb⟩ := hap "pb" "20" (by rfl)
  have hda' : da = SessionData.mk "pa" "10" 10000 := by
    have : some da = some (SessionData.mk "pa" "10" 10000) := by rw [← hda]; rfl
    exact Option.some.inj this
  have hdb' : db = SessionData.mk "pb" "20" 64000 := by
    have : some db = some (SessionData.mk "pb" "20" 64000) := by rw [← hdb]; rfl
    exact Option.some.inj this
  subst hda'
  subst hdb'
  rw [if_pos (by decide)] at h10 hpa
  rw [if_neg (by decide)] at h20 hpb
  exact ⟨h10, h20, hpa, hpb, rfl⟩

/-- Witness for the amended C3 theorem at concrete inputs. -/
theorem touch_semantics_witness :
    ValidateRequest touchServer none 9 = .error missingSessionIDErrorMsg ∧
    ValidateRequest touchServer (some "999") 9 = .error invalidSessionErrorMsg ∧
    ValidateRequest touchServer (some "100") 9 =
      .ok { touchServer with sessions := [("100", ⟨"p", "100", 9⟩)] } ∧
    (5 : Int) < 9 := by
  have h1 := touch_semantics touchServer "100" ⟨"p", "100", 5⟩ 9 (by decide)
  have h2 := touch_semantics touchServer "999" ⟨"p", "100", 5⟩ 9 (by decide)
  exact ⟨h1.1, h2.2.1 (by rfl), (h1.2.2 (by rfl)).1, by decide⟩

/-- **C8**: logout first validates the session token, answering 401 with the
missing-token or invalid-session error when it is absent or unknown; a
successful logout removes the session and its reverse-index entry (leaving
credentials intact), and a second logout with the same token fails with the
invalid-session error and returns the state unchanged — logout is not
idempotent. -/
theorem logout_not_idempotent :
    ∀ as sID d now now₂, Invariant as →
    (HandleLogoutRequest as none now =
      .resp ⟨401, .text ("session error: " ++ missingSessionIDErrorMsg), none⟩ as) ∧
    (lookupKV sID as.sessions = none →
      HandleLogoutRequest as (some sID) now =
        .resp ⟨401, .text ("session error: " ++ invalidSessionErrorMsg), none⟩ as) ∧
    (lookupKV sID as.sessions = some d →
      ∃ as₂, HandleLogoutRequest as (some sID) now =
          .resp ⟨200, .text "success", none⟩ as₂ ∧
        lookupKV sID as₂.sessions = none ∧
        lookupKV d.PlayerID as₂.activePlayerIDs = none ∧
        as₂.credentials = as.credentials ∧
        HandleLogoutRequest as₂ (some sID) now₂ =
          .resp ⟨401, .text ("session error: " ++ invalidSessionErrorMsg), none⟩ as₂) := by
  intro as sID d now now₂ hinv
  refine ⟨rfl, ?_, ?_⟩
  · intro hnone
    unfold HandleLogoutRequest ValidateRequest
    simp [hnone]
  · intro hl
    have hsid : d.SessionID = sID := hinv.2.2.1 (sID, d) (mem_of_lookupKV_eq_some hl)
    have hval : ValidateRequest as (some sID) now =
        .ok { as with sessions := insertKV sID (SessionData.mk d.PlayerID sID now) as.sessions } := by
      unfold ValidateRequest
      simp [hl, hsid]
    have hdel : deleteSession
        { as with sessions := insertKV sID (SessionData.mk d.PlayerID sID now) as.sessions } sID =
        .ok { as with
              activePlayerIDs := eraseKV d.PlayerID as.activePlayerIDs,
              sessions := eraseKV sID (insertKV sID (SessionData.mk d.PlayerID sID now) as.sessions) } := by
      unfold deleteSession
      rw [lookupKV_insertKV_self]
    refine ⟨⟨as.credentials, eraseKV sID (insertKV sID (SessionData.mk d.PlayerID sID now) as.sessions), eraseKV d.PlayerID as.activePlayerIDs, as.serverVersion⟩, ?_, ?_, ?_, rfl, ?_⟩
    · unfold HandleLogoutRequest
      simp only [hval, hdel]
    · exact lookupKV_eraseKV_self _ _
    · exact lookupKV_eraseKV_self _ _
    · unfold HandleLogoutRequest ValidateRequest
      simp [lookupKV_eraseKV_self]

/-- Witness for the C8 theorem: the concrete logout pair on `loServer`. -/
theorem logout_not_idempotent_witness :
    Invariant loServer ∧
    lookupKV "50" loServer.sessions = some ⟨"pl", "50", 3⟩ ∧
    HandleLogoutRequest loServer none 4 =
      .resp ⟨401, .text ("session error: " ++ missingSessionIDErrorMsg), none⟩ loServer ∧
    HandleLogoutRequest loServer (some "51") 4 =
      .resp ⟨401, .text ("session error: " ++ invalidSessionErrorMsg), none⟩ loServer ∧
    HandleLogoutRequest loServer (some "50") 4 =
      .resp ⟨200, .text "success", none⟩ loServerOut ∧
    HandleLogoutRequest loServerOut (some "50") 5 =
      .resp ⟨401, .text ("session error: " ++ invalidSessionErrorMsg), none⟩ loServerOut := by
  have hinv : Invariant loServer := by decide
  have h50 := logout_not_idempotent loServer "50" ⟨"pl", "50", 3⟩ 4 5 hinv
  have h51 := logout_not_idempotent loServer "51" ⟨"pl", "50", 3⟩ 4 5 hinv
  exact ⟨hinv, rfl, h50.1, h51.2.1 (by rfl), by rfl, by rfl⟩

theorem splitOnColon_of_no_colon {l : List Nat} (h : ∀ c ∈ l, c ≠ 58) :
    splitOnColon l = [l] := by
  induction l with
  | nil => rfl
  | cons c rest ih =>
    have hc : c ≠ 58 := h c (List.mem_cons_self _ _)
    have hrest := ih (fun c' hc' => h c' (List.mem_cons_of_mem _ hc'))
    simp [splitOnColon, hc, hrest]

/-- **C2** (amended): for a login request carrying an Authorization header,
only the base64 failure path yields BadRequest: when the header value is at
least 6 bytes and the remainder after the 6-byte prefix is not valid base64
the handler returns the 400 client error with the state untouched; but a
header value shorter than 6 bytes makes the handler panic on the Go slice
`encodedCred[6:]`, and a decodable header whose decoded payload contains no
`:` separator makes it panic indexing the second split part — contrary to
the claim, those inputs do not produce BadRequest and the handler can
panic. -/
theorem login_decode_failure :
    ∀ as hdr body nowSec nowMicro,
    (6 ≤ hdr.length → base64Decode (hdr.drop 6) = none →
      HandleLoginRequest as (some hdr) body nowSec nowMicro =
        .resp ⟨400, .text "cannot decode the given credentials", none⟩ as) ∧
    (hdr.length < 6 →
      HandleLoginRequest as (some hdr) body nowSec nowMicro =
        .panicked "slice bounds out of range") ∧
    (∀ decoded, 6 ≤ hdr.length →
      base64Decode (hdr.drop 6) = some decoded →
      (∀ c ∈ decoded, c ≠ 58) →
      HandleLoginRequest as (some hdr) body nowSec nowMicro =
        .panicked "index out of range") := by
  intro as hdr body nowSec nowMicro
  refine ⟨?_, ?_, ?_⟩
  · intro h6 hb
    unfold HandleLoginRequest decodeAuthHeaderPayload
    simp [Nat.not_lt.mpr h6, hb]
  · intro h6
    unfold HandleLoginRequest decodeAuthHeaderPayload
    simp [h6]
  · intro decoded h6 hb hnc
    unfold HandleLoginRequest decodeAuthHeaderPayload
    simp [Nat.not_lt.mpr h6, hb, splitOnColon_of_no_colon hnc]

/-- C2 counterexample: the 3-byte header value `abc` makes the login handler
panic (Go: slice bounds out of range on `encodedCred[6:]`) instead of
returning BadRequest, and the well-formed header `Basic dXNlcg==` (which
decodes to `user`, containing no colon) panics indexing the missing second
split part — refuting "returns a BadRequest client error; it never panics on
any such input". -/
theorem login_decode_failure_counterexample :
    HandleLoginRequest (NewAuthServer "v") (some [97, 98, 99])
        (some ⟨true, "v"⟩) 0 1 = .panicked "slice bounds out of range" ∧
    HandleLoginRequest (NewAuthServer "v")
        (some [66, 97, 115, 105, 99, 32, 100, 88, 78, 108, 99, 103, 61, 61])
        (some ⟨true, "v"⟩) 0 1 = .panicked "index out of range" ∧
    HandleLoginRequest (NewAuthServer "v") (some [97, 98, 99])
        (some ⟨true, "v"⟩) 0 1 ≠
      .resp ⟨400, .text "cannot decode the given credentials", none⟩
        (NewAuthServer "v") :=
  ⟨rfl, rfl, by decide⟩

/-- Witness for the amended C2 theorem: `Basic ***` (invalid base64) gets
the 400 response; `abc` (3 bytes) and `Basic dXNlcg==` (no colon) panic. -/
theorem login_decode_failure_witness :
    HandleLoginRequest (NewAuthServer "v")
        (some [66, 97, 115, 105, 99, 32, 42, 42, 42]) (some ⟨true, "v"⟩) 0 1 =
      .resp ⟨400, .text "cannot decode the given credentials", none⟩
        (NewAuthServer "v") ∧
    HandleLoginRequest (NewAuthServer "v") (some [97, 98, 99])
        (some ⟨true, "v"⟩) 0 1 = .panicked "slice bounds out of range" ∧
    HandleLoginRequest (NewAuthServer "v")
        (some [66, 97, 115, 105, 99, 32, 100, 88, 78, 108, 99, 103, 61, 61])
        (some ⟨true, "v"⟩) 0 1 = .panicked "index out of range" := by
  have hbad := login_decode_failure (NewAuthServer "v")
      [66, 97, 115, 105, 99, 32, 42, 42, 42] (some ⟨true, "v"⟩) 0 1
  have hshort := login_decode_failure (NewAuthServer "v") [97, 98, 99]
      (some ⟨true, "v"⟩) 0 1
  have hnocolon := login_decode_failure (NewAuthServer "v")
      [66, 97, 115, 105, 99, 32, 100, 88, 78, 108, 99, 103, 61, 61]
      (some ⟨true, "v"⟩) 0 1
  exact ⟨hbad.1 (by decide) (by rfl), hshort.2.1 (by decide),
    hnocolon.2.2 [117, 115, 101, 114] (by decide) (by rfl) (by decide)⟩

/-- **C7**: for a login request with a well-formed credential header and
body, a serverVersion mismatch forces the new-user path regardless of the
supplied isNewUser flag: the request is processed exactly as a new-user
request — failing with the username-taken error when the username already
exists, and otherwise provisioning the credentials as a new user and
answering 200 with the derived player id. -/
theorem version_mismatch_forces_new_user :
    ∀ as hdr body usr pwd nowSec nowMicro,
    decodeAuthHeaderPayload hdr = .ok usr pwd →
    body.ServerVersion ≠ as.serverVersion →
    (HandleLoginRequest as (some hdr) (some body) nowSec nowMicro =
      loginCore as usr pwd true nowSec nowMicro) ∧
    (∀ pw0, lookupKV usr as.credentials = some pw0 →
      HandleLoginRequest as (some hdr) (some body) nowSec nowMicro =
        .resp ⟨400, .text "username already exists, cannot create new user", none⟩ as) ∧
    (lookupKV usr as.credentials = none → usr ≠ [] →
      ∃ r as', HandleLoginRequest as (some hdr) (some body) nowSec nowMicro =
          .resp r as' ∧
        r.status = 200 ∧
        r.body = .login ⟨hexEncode ((sha256 usr).take 4), as.serverVersion⟩ ∧
        lookupKV usr as'.credentials = some pwd) := by
  intro as hdr body usr pwd nowSec nowMicro hdec hver
  have h1 : HandleLoginRequest as (some hdr) (some body) nowSec nowMicro =
      loginCore as usr pwd true nowSec nowMicro := by
    unfold HandleLoginRequest
    simp [hdec, hver]
  refine ⟨h1, ?_, ?_⟩
  · intro pw0 hpw0
    rw [h1]
    unfold loginCore
    simp [hpw0]
  · intro hnone husr
    have hgen : generatePlayerID usr = .ok (hexEncode ((sha256 usr).take 4)) := by
      unfold generatePlayerID
      rw [if_neg husr]
    have h2 : HandleLoginRequest as (some hdr) (some body) nowSec nowMicro =
        loginSession { as with credentials := insertKV usr pwd as.credentials }
          usr nowSec nowMicro := by
      rw [h1]
      unfold loginCore
      simp [hnone]
    unfold loginSession at h2
    simp only [hgen] at h2
    exact ⟨_, _, h2, rfl, rfl, lookupKV_insertKV_self _ _ _⟩

/-- Witness for the C7 theorem: header `Basic dTpw` (`u:p`), body with
isNewUser = false but serverVersion `old` ≠ `srv`. -/
theorem version_mismatch_forces_new_user_witness :
    (HandleLoginRequest (NewAuthServer "srv")
        (some [66, 97, 115, 105, 99, 32, 100, 84, 112, 119])
        (some ⟨false, "old"⟩) 0 1 =
      loginCore (NewAuthServer "srv") [117] [112] true 0 1) ∧
    (HandleLoginRequest c7Taken
        (some [66, 97, 115, 105, 99, 32, 100, 84, 112, 119])
        (some ⟨false, "old"⟩) 0 1 =
      .resp ⟨400, .text "username already exists, cannot create new user", none⟩
        c7Taken) := by
  have hfresh := version_mismatch_forces_new_user (NewAuthServer "srv")
      [66, 97, 115, 105, 99, 32, 100, 84, 112, 119] ⟨false, "old"⟩ [117] [112] 0 1
      (by rfl) (by decide)
  have htaken := version_mismatch_forces_new_user c7Taken
      [66, 97, 115, 105, 99, 32, 100, 84, 112, 119] ⟨false, "old"⟩ [117] [112] 0 1
      (by rfl) (by decide)
  exact ⟨hfresh.1, htaken.2.1 [99] (by rfl)⟩

/-- **C9**: player-id derivation is a pure, deterministic function of the
username alone: for every non-empty username (UTF-8 byte string),
`generatePlayerID` returns the hex encoding of the first 4 bytes of the
SHA-256 digest of the username; equal usernames always yield equal ids, and
any two successful logins with the same username — whatever their passwords,
flags, states or times — carry that same playerID in their response
bodies. -/
theorem player_id_pure :
    (∀ input, input ≠ [] →
      generatePlayerID input = .ok (hexEncode ((sha256 input).take 4))) ∧
    (∀ input₁ input₂, input₁ = input₂ →
      generatePlayerID input₁ = generatePlayerID input₂) ∧
    (∀ as as₂ usr pwd pwd₂ isNew isNew₂ s m s₂ m₂ r r₂ st st₂,
      loginCore as usr pwd isNew s m = .resp r st →
      loginCore as₂ usr pwd₂ isNew₂ s₂ m₂ = .resp r₂ st₂ →
      r.status = 200 → r₂.status = 200 →
      r.body = .login ⟨hexEncode ((sha256 usr).take 4), as.serverVersion⟩ ∧
      r₂.body = .login ⟨hexEncode ((sha256 usr).take 4), as₂.serverVersion⟩) := by
  refine ⟨?_, ?_, ?_⟩
  · intro input hne
    unfold generatePlayerID
    rw [if_neg hne]
  · intro input₁ input₂ h
    rw [h]
  · intro as as₂ usr pwd pwd₂ isNew isNew₂ s m s₂ m₂ r r₂ st st₂ h h₂ hst hst₂
    obtain ⟨pA, hgenA, hrA, _⟩ := loginCore_success h hst
    obtain ⟨pB, hgenB, hrB, _⟩ := loginCore_success h₂ hst₂
    have husr : usr ≠ [] := by
      intro he
      rw [he] at hgenA
      unfold generatePlayerID at hgenA
      simp at hgenA
    have hgen : generatePlayerID usr = .ok (hexEncode ((sha256 usr).take 4)) := by
      unfold generatePlayerID
      rw [if_neg husr]
    have hpA : pA = hexEncode ((sha256 usr).take 4) := by
      rw [hgen] at hgenA
      exact (Except.ok.inj hgenA).symm
    have hpB : pB = hexEncode ((sha256 usr).take 4) := by
      rw [hgen] at hgenB
      exact (Except.ok.inj hgenB).symm
    rw [hrA, hrB, hpA, hpB]
    exact ⟨rfl, rfl⟩

/-- Witness for the C9 theorem: two fresh-server logins of `u` with
different passwords (`p` and `q`) both answer with the same derived player
id `0bfe935e`. -/
theorem player_id_pure_witness :
    generatePlayerID [117] = .ok (hexEncode ((sha256 [117]).take 4)) ∧
    hexEncode ((sha256 [117]).take 4) = "0bfe935e" ∧
    (HttpResponse.mk 200 (.login ⟨"0bfe935e", "v"⟩) (some "1")).body =
      .login ⟨hexEncode ((sha256 [117]).take 4), (NewAuthServer "v").serverVersion⟩ := by
  have h := player_id_pure
  have h1 := h.1 [117] (by decide)
  have h3 := h.2.2 (NewAuthServer "v") (NewAuthServer "v") [117] [112] [113]
      true true 0 1 0 1
      (HttpResponse.mk 200 (.login ⟨"0bfe935e", "v"⟩) (some "1"))
      (HttpResponse.mk 200 (.login ⟨"0bfe935e", "v"⟩) (some "1"))
      dlServer1 c9Server (by rfl) (by rfl) rfl rfl
  exact ⟨h1, by rfl, h3.1⟩

/-- **C10**: login is not atomic on the id-generation error path: a new-user
login whose Basic credentials decode to the empty username inserts the
(empty username → password) credential entry, then player-id generation
fails and the handler returns the internal error with no session created —
but the credential entry stays in the store, so repeating the same login
afterwards fails with the username-already-exists error instead. -/
theorem login_empty_username_not_atomic :
    ∀ as hdr pwd body nowSec nowMicro nowSec₂ nowMicro₂,
    decodeAuthHeaderPayload hdr = .ok [] pwd →
    (body.ServerVersion ≠ as.serverVersion ∨ body.IsNewUser = true) →
    lookupKV [] as.credentials = none →
    HandleLoginRequest as (some hdr) (some body) nowSec nowMicro =
      .resp ⟨500, .text "could not generate player id", none⟩
        { as with credentials := insertKV [] pwd as.credentials } ∧
    lookupKV [] (insertKV ([] : List Nat) pwd as.credentials) = some pwd ∧
    HandleLoginRequest { as with credentials := insertKV [] pwd as.credentials }
        (some hdr) (some body) nowSec₂ nowMicro₂ =
      .resp ⟨400, .text "username already exists, cannot create new user", none⟩
        { as with credentials := insertKV [] pwd as.credentials } := by
  intro as hdr pwd body nowSec nowMicro nowSec₂ nowMicro₂ hdec hflag hnone
  have hforced : ∀ st : Server, st.serverVersion = as.serverVersion →
      ∀ ns nm, HandleLoginRequest st (some hdr) (some body) ns nm =
        loginCore st [] pwd true ns nm := by
    intro st hv ns nm
    unfold HandleLoginRequest
    rcases hflag with hver | htrue
    · simp [hdec, hv ▸ hver]
    · by_cases hver : body.ServerVersion ≠ st.serverVersion
      · simp [hdec, hver]
      · simp [hdec, hver, htrue]
  refine ⟨?_, lookupKV_insertKV_self _ _ _, ?_⟩
  · rw [hforced as rfl]
    unfold loginCore
    simp [hnone]
    unfold loginSession generatePlayerID
    simp
  · rw [hforced { as with credentials := insertKV [] pwd as.credentials } rfl]
    unfold loginCore
    simp [lookupKV_insertKV_self]

/-- Witness for the C10 theorem: header `Basic OnB3ZA==` (payload `:pwd`,
empty username) against a fresh server. -/
theorem login_empty_username_not_atomic_witness :
    HandleLoginRequest (NewAuthServer "v")
        (some [66, 97, 115, 105, 99, 32, 79, 110, 66, 51, 90, 65, 61, 61])
        (some ⟨true, "v"⟩) 0 1 =
      .resp ⟨500, .text "could not generate player id", none⟩
        { NewAuthServer "v" with
          credentials := insertKV [] [112, 119, 100] (NewAuthServer "v").credentials } ∧
    HandleLoginRequest
        { NewAuthServer "v" with
          credentials := insertKV [] [112, 119, 100] (NewAuthServer "v").credentials }
        (some [66, 97, 115, 105, 99, 32, 79, 110, 66, 51, 90, 65, 61, 61])
        (some ⟨true, "v"⟩) 0 2 =
      .resp ⟨400, .text "username already exists, cannot create new user", none⟩
        { NewAuthServer "v" with
          credentials := insertKV [] [112, 119, 100] (NewAuthServer "v").credentials } := by
  have h := login_empty_username_not_atomic (NewAuthServer "v")
      [66, 97, 115, 105, 99, 32, 79, 110, 66, 51, 90, 65, 61, 61]
      [112, 119, 100] ⟨true, "v"⟩ 0 1 0 2 (by rfl) (Or.inr rfl) (by rfl)
  exact ⟨h.1, h.2.2⟩

end DiceAuth
